import Mathlib

/-!
Verification of the 1password-node client core (src/index.ts) against its
natural-language specification.

The TypeScript source is shallowly embedded: instants are integer epoch
milliseconds, JavaScript objects become structures, fallible paths return
Except, the subprocess boundary is an environment of typed responses (the
classified and parsed standard output of the external binary), and the
memoizee caches become explicit association lists threaded through every
operation together with a log of subprocess invocations.
-/

deriving instance DecidableEq for Except

namespace OnePassword

/-! ## JavaScript string builtins, embedded as structural functions over
character lists so that every concrete evaluation reduces in the kernel. -/

/-- Splitting worker: fuel-indexed so the recursion is structural; with
fuel at least the length of the input and a non-empty separator this is
exactly JavaScript split. -/
def splitChars (sep : List Char) : Nat → List Char → List Char → List (List Char)
  | _, [], acc => [acc.reverse]
  | 0, _ :: _, acc => [acc.reverse]
  | fuel + 1, c :: rest, acc =>
    if sep.isPrefixOf (c :: rest) && !sep.isEmpty then
      acc.reverse :: splitChars sep fuel (List.drop sep.length (c :: rest)) []
    else
      splitChars sep fuel rest (c :: acc)

/-- Embedding of JavaScript String.prototype.split for a non-empty
separator. -/
def jsSplit (sep s : String) : List String :=
  (splitChars sep.toList s.toList.length s.toList []).map String.mk

/-- Embedding of JavaScript String.prototype.trim. -/
def jsTrim (s : String) : String :=
  String.mk (((s.toList.dropWhile Char.isWhitespace).reverse.dropWhile
    Char.isWhitespace).reverse)

/-- Embedding of JavaScript String.prototype.startsWith. -/
def strStartsWith (s pre : String) : Bool :=
  pre.toList.isPrefixOf s.toList

/-- Embedding of JavaScript String.prototype.toLowerCase. -/
def jsToLower (s : String) : String :=
  String.mk (s.toList.map Char.toLower)

/-! ## Errors (src/index.ts lines 9-11, plus JavaScript runtime TypeError) -/

inductive ExecError where
  | sessionError (msg : String)
  | queryError (msg : String)
  | typeError
deriving DecidableEq, Repr

/-! ## Sessions (lines 22-25, 42-44) -/

structure Session where
  token : String
  expiresAt : Int
deriving DecidableEq, Repr

/-- Embedding of isValidSession (line 42-44): the expiration instant must be
strictly greater than the check instant (Date.now is passed explicitly). -/
def isValidSession (now : Int) (s : Session) : Bool :=
  s.expiresAt > now

structure Credentials where
  domain : String
  email : String
  secretKey : String
  masterPassword : String
deriving DecidableEq, Repr

/-! ## Response classifier (lines 328-343)

JavaScript split(sep)[1] picks the second chunk of the split, and is
undefined (a subsequent method call throws TypeError) when the separator
does not occur.  The disjunct on line 334 is the truthiness of the literal
string "401: Authentication required", embedded via jsTruthy. -/

def jsTruthy (s : String) : Bool :=
  s ≠ ""

def listIsInfix [BEq α] (pat : List α) : List α → Bool
  | [] => pat.isEmpty
  | a :: rest => pat.isPrefixOf (a :: rest) || listIsInfix pat rest

/-- Embedding of JavaScript String.prototype.includes. -/
def strIncludes (s pat : String) : Bool :=
  listIsInfix pat.toList s.toList

/-- Embedding of the message extraction on lines 329-332:
result.split of three dashes at index 1, then split of the error tag at
index 1, then trim.  None models the JavaScript TypeError raised when an
index is missing. -/
def extractErrorMessage (result : String) : Option String :=
  match (jsSplit ("---") result).get? 1 with
  | none => none
  | some part =>
    match (jsSplit ("(ERROR)") part).get? 1 with
    | none => none
    | some msgPart => some (jsTrim msgPart)

/-- Embedding of the error-classification and raw-success branch of exec
(lines 328-341): an error envelope is recognized by its sentinel prefix,
its message extracted, and classified; the condition on line 334 is a
boolean-or whose right disjunct is the truthiness of a nonempty string
literal. -/
def classify (result : String) : Except ExecError String :=
  if strStartsWith result ("[bin-error]") then
    match extractErrorMessage result with
    | none => Except.error ExecError.typeError
    | some err =>
      if strIncludes err ("You are not currently signed in.")
          || jsTruthy ("401: Authentication required") then
        Except.error (ExecError.sessionError ("Session invalid"))
      else
        Except.error (ExecError.queryError err)
  else
    Except.ok result

/-! ## Data model (lines 48-54, 70-83, 131-134, 142-150, 175-201) -/

structure Account where
  uuid : String
  name : String
  avatarUrl : String
  baseAvatarURL : String
  createdAt : Int
deriving DecidableEq, Repr

structure User where
  uuid : String
  firstName : String
  lastName : String
  email : String
  avatarUrl : String
deriving DecidableEq, Repr

structure UserDetails extends User where
  language : String
  createdAt : Int
  updatedAt : Int
  lastAuthAt : Int
deriving DecidableEq, Repr

structure Template where
  uuid : String
  name : String
deriving DecidableEq, Repr

structure Vault where
  uuid : String
  name : String
deriving DecidableEq, Repr

structure VaultDetails where
  uuid : String
  name : String
  description : String
  avatarUrl : String
deriving DecidableEq, Repr

/-- Item merges the BaseItem shape (lines 175-180) with the variant fields
mapper can contribute (lines 182-185); absent JavaScript keys are none. -/
structure Item where
  uuid : String
  vault : VaultDetails
  template : Template
  title : String
  username : Option String
  password : Option String
deriving DecidableEq, Repr

/-! ## Raw subprocess records: the fields the source reads off the parsed
JSON payloads. -/

structure RawAccount where
  uuid : String
  name : String
  baseAvatarURL : String
  avatar : String
  createdAt : Int
deriving DecidableEq, Repr

structure RawUser where
  uuid : String
  firstName : String
  lastName : String
  email : String
  avatar : String
  language : String
  createdAt : Int
  updatedAt : Int
  lastAuthAt : Int
deriving DecidableEq, Repr

structure RawVault where
  uuid : String
  name : String
  desc : String
  avatar : String
deriving DecidableEq, Repr

structure RawField where
  name : String
  designation : String
  type : String
  value : String
deriving DecidableEq, Repr

structure RawOverview where
  title : String
  ainfo : String
  url : String
deriving DecidableEq, Repr

structure RawDetails where
  fields : Option (List RawField)
deriving DecidableEq, Repr

/-- Raw item record: the list filter on line 257 reads item.template.uuid
(an embedded template reference), while format reads item.templateUuid. -/
structure RawItem where
  uuid : String
  vaultUuid : String
  templateUuid : String
  template : Template
  overview : RawOverview
  details : Option RawDetails
deriving DecidableEq, Repr

/-! ## Fuse options (lines 189-201 and 209-222) -/

structure FuseConfig where
  shouldSort : Bool
  threshold : Rat
  location : Nat
  distance : Nat
  maxPatternLength : Nat
  minMatchCharLength : Nat
  keys : List String
deriving DecidableEq, Repr

structure FusePartial where
  shouldSort : Option Bool := none
  threshold : Option Rat := none
  location : Option Nat := none
  distance : Option Nat := none
  maxPatternLength : Option Nat := none
  minMatchCharLength : Option Nat := none
  keys : Option (List String) := none
deriving DecidableEq, Repr

/-- Embedding of the Object.assign on lines 209-222: caller-supplied fuse
fields override the defaults field by field. -/
def mergeFuse (p : FusePartial) : FuseConfig :=
  { shouldSort := p.shouldSort.getD true
    threshold := p.threshold.getD (15 / 100)
    location := p.location.getD 0
    distance := p.distance.getD 100
    maxPatternLength := p.maxPatternLength.getD 32
    minMatchCharLength := p.minMatchCharLength.getD 1
    keys := p.keys.getD
      [("uuid"), ("vaultUuid"), ("overview.ainfo"), ("overview.title"), ("overview.url")] }

structure ItemsOptions where
  vault : Option Vault := none
  template : Option Template := none
  query : Option String := none
  fuse : Option FusePartial := none
deriving DecidableEq, Repr

/-- JavaScript falsiness of the optional query string (line 207): absent or
empty. -/
def queryFalsy : Option String → Bool
  | none => true
  | some s => s = ""

/-! ## Environment: typed view of the external binary's classified and
parsed responses, plus the clock.  Each field is the outcome exec would
produce after classification and JSON parsing for the given query; the
fuzzy search of the Fuse.js dependency is carried as an abstract function. -/

structure Env where
  now : Int
  signinResp : String
  accountResp : Except ExecError RawAccount
  usersResp : Except ExecError (List RawUser)
  userResp : String → Except ExecError RawUser
  templatesResp : Except ExecError (List Template)
  vaultsResp : Except ExecError (List Vault)
  vaultResp : String → Except ExecError RawVault
  itemsResp : Option Vault → Except ExecError (List RawItem)
  itemResp : String → Except ExecError RawItem

/-- Signature of the fuzzy search of the Fuse.js dependency (line 224):
given the merged options, the raw item list and the query, it returns the
scored subset.  It is kept abstract and passed explicitly to the item
listing. -/
def FuzzySearch : Type :=
  FuseConfig → List RawItem → String → List RawItem

/-! ## Caches and the invocation log

memoizee caches, per argument key, the promise produced by the first call,
settled outcome included; this is embedded as association lists from keys
to Except outcomes.  Each subprocess invocation appends its argument
vector to the log. -/

def alookup [DecidableEq κ] : List (κ × α) → κ → Option α
  | [], _ => none
  | (k, v) :: rest, k' => if k' = k then some v else alookup rest k'

structure OPState where
  accountCache : List (Session × Except ExecError Account)
  usersCache : List (Session × Except ExecError (List User))
  userCache : List ((Session × String) × Except ExecError UserDetails)
  templatesCache : List (Session × Except ExecError (List Template))
  vaultCache : List ((Session × String) × Except ExecError VaultDetails)
  itemsCache : List ((Session × ItemsOptions) × Except ExecError (List Item))
  itemCache : List ((Session × String) × Except ExecError Item)
  log : List (List String)

def initState : OPState :=
  { accountCache := [], usersCache := [], userCache := [], templatesCache := []
    vaultCache := [], itemsCache := [], itemCache := [], log := [] }

/-! ## Command builder and subprocess step (lines 304-320) -/

def appendVault (args : List String) : Option Vault → List String
  | some v => args ++ ["--vault=" ++ v.name]
  | none => args

/-- Embedding of the argument assembly of exec (lines 308-318): tokenize
the command, gate and append the session flag, append the vault flag. -/
def buildArgs (now : Int) (command : String) (session : Option Session)
    (vault : Option Vault) : Except ExecError (List String) :=
  match session with
  | none => Except.ok (appendVault (jsSplit (" ") command) vault)
  | some s =>
    if isValidSession now s then
      Except.ok (appendVault (jsSplit (" ") command ++ ["--session=" ++ s.token]) vault)
    else
      Except.error (ExecError.sessionError ("Session invalid"))

/-- Embedding of the spawn boundary of exec (line 320): when the argument
vector was built, one subprocess invocation is recorded; a session-gate
failure spawns nothing and leaves the state untouched. -/
def execStep (env : Env) (cmd : String) (sess : Option Session)
    (vault : Option Vault) (st : OPState) : Except ExecError (List String) × OPState :=
  match buildArgs env.now cmd sess vault with
  | Except.error e => (Except.error e, st)
  | Except.ok args => (Except.ok args, { st with log := st.log ++ [args] })

/-! ## Formatting helpers (lines 56-66, 123-127, 156-171) -/

/-- Embedding of the account shaping in getAccount (lines 59-65). -/
def formatAccount (raw : RawAccount) : Account :=
  { uuid := raw.uuid
    name := raw.name
    avatarUrl := raw.baseAvatarURL ++ raw.uuid ++ "/" ++ raw.avatar
    baseAvatarURL := raw.baseAvatarURL ++ raw.uuid
    createdAt := raw.createdAt }

/-- Embedding of userAvatarUrl (lines 123-127). -/
def userAvatarUrl (avatar : String) (account : Account) : String :=
  if avatar.length > 0 then
    account.baseAvatarURL ++ "/" ++ avatar
  else
    "https://a.1password.com/app/images/avatar-person-default.png"

/-- Embedding of the vault shaping in getVault (lines 160-170). -/
def mkVaultDetails (raw : RawVault) (account : Account) : VaultDetails :=
  { uuid := raw.uuid
    name := raw.name
    description := raw.desc
    avatarUrl :=
      if raw.avatar.length > 0 then
        account.baseAvatarURL ++ "/" ++ raw.avatar
      else
        "https://a.1password.com/app/images/avatar-vault-default.png" }

/-! ## Variant mapper (lines 268-294) -/

structure MapperOut where
  username : Option String
  password : Option String
deriving DecidableEq, Repr

def isNamePasswordField (f : RawField) : Bool :=
  jsToLower f.name == "password" && f.type == "P"

def isDesignationPasswordField (f : RawField) : Bool :=
  jsToLower f.designation == "password" && f.type == "P"

/-- Embedding of mapper (lines 268-294): Login items (template id 001)
with a details.fields list expose username from the overview info and a
password preferring the name-matched field over the designation match;
other templates contribute no variant fields. -/
def mapper (item : RawItem) (template : Template) : MapperOut :=
  match template.uuid with
  | "001" =>
    match item.details with
    | some d =>
      match d.fields with
      | some fs =>
        let password :=
          match fs.find? isNamePasswordField with
          | some f => some f.value
          | none =>
            match fs.find? isDesignationPasswordField with
            | some f => some f.value
            | none => none
        { username := some item.overview.ainfo, password := password }
      | none => { username := some item.overview.ainfo, password := none }
    | none => { username := some item.overview.ainfo, password := none }
  | _ => { username := none, password := none }

/-- Embedding of the Object.assign on lines 244-250 merging the BaseItem
shape with mapper output. -/
def assembleItem (raw : RawItem) (vd : VaultDetails) (t : Template) : Item :=
  let m := mapper raw t
  { uuid := raw.uuid, vault := vd, template := t, title := raw.overview.title
    username := m.username, password := m.password }

/-! ## Memoized operations

Each operation is split into a factory (the body of the async function)
and a wrapper embedding the memoizee cache: look the key up, otherwise run
the factory and record its settled outcome under the key.  getVaults
(lines 152-154) has no wrapper in the source and therefore none here. -/

/-- Embedding of the getAccount body (lines 56-66). -/
def getAccountFactory (env : Env) (s : Session) (st : OPState) :
    Except ExecError Account × OPState :=
  match execStep env ("get account") (some s) none st with
  | (Except.error e, st1) => (Except.error e, st1)
  | (Except.ok _, st1) =>
    match env.accountResp with
    | Except.error e => (Except.error e, st1)
    | Except.ok raw => (Except.ok (formatAccount raw), st1)

def getAccountRun (env : Env) (s : Session) (st : OPState) :
    Except ExecError Account × OPState :=
  match alookup st.accountCache s with
  | some r => (r, st)
  | none =>
    match getAccountFactory env s st with
    | (r, st1) => (r, { st1 with accountCache := (s, r) :: st1.accountCache })

/-- Embedding of the getUsers body (lines 85-101). -/
def getUsersFactory (env : Env) (s : Session) (st : OPState) :
    Except ExecError (List User) × OPState :=
  match execStep env ("list users") (some s) none st with
  | (Except.error e, st1) => (Except.error e, st1)
  | (Except.ok _, st1) =>
    match env.usersResp with
    | Except.error e => (Except.error e, st1)
    | Except.ok raws =>
      match getAccountRun env s st1 with
      | (Except.error e, st2) => (Except.error e, st2)
      | (Except.ok account, st2) =>
        (Except.ok (raws.map (fun u =>
          { uuid := u.uuid, firstName := u.firstName, lastName := u.lastName
            email := u.email, avatarUrl := userAvatarUrl u.avatar account })), st2)

def getUsersRun (env : Env) (s : Session) (st : OPState) :
    Except ExecError (List User) × OPState :=
  match alookup st.usersCache s with
  | some r => (r, st)
  | none =>
    match getUsersFactory env s st with
    | (r, st1) => (r, { st1 with usersCache := (s, r) :: st1.usersCache })

/-- Embedding of the getUser body (lines 103-121). -/
def getUserFactory (env : Env) (s : Session) (id : String) (st : OPState) :
    Except ExecError UserDetails × OPState :=
  match execStep env ("get user " ++ id) (some s) none st with
  | (Except.error e, st1) => (Except.error e, st1)
  | (Except.ok _, st1) =>
    match env.userResp id with
    | Except.error e => (Except.error e, st1)
    | Except.ok u =>
      match getAccountRun env s st1 with
      | (Except.error e, st2) => (Except.error e, st2)
      | (Except.ok account, st2) =>
        (Except.ok
          { uuid := u.uuid, firstName := u.firstName, lastName := u.lastName
            email := u.email, language := u.language
            avatarUrl := userAvatarUrl u.avatar account
            createdAt := u.createdAt, updatedAt := u.updatedAt
            lastAuthAt := u.lastAuthAt }, st2)

def getUserRun (env : Env) (s : Session) (id : String) (st : OPState) :
    Except ExecError UserDetails × OPState :=
  match alookup st.userCache (s, id) with
  | some r => (r, st)
  | none =>
    match getUserFactory env s id st with
    | (r, st1) => (r, { st1 with userCache := ((s, id), r) :: st1.userCache })

/-- Embedding of the getTemplates body (lines 136-138). -/
def getTemplatesFactory (env : Env) (s : Session) (st : OPState) :
    Except ExecError (List Template) × OPState :=
  match execStep env ("list templates") (some s) none st with
  | (Except.error e, st1) => (Except.error e, st1)
  | (Except.ok _, st1) => (env.templatesResp, st1)

def getTemplatesRun (env : Env) (s : Session) (st : OPState) :
    Except ExecError (List Template) × OPState :=
  match alookup st.templatesCache s with
  | some r => (r, st)
  | none =>
    match getTemplatesFactory env s st with
    | (r, st1) => (r, { st1 with templatesCache := (s, r) :: st1.templatesCache })

/-- Embedding of getVaults (lines 152-154): a plain async function, not
wrapped in memoize, so every call reaches the subprocess boundary. -/
def getVaultsRun (env : Env) (s : Session) (st : OPState) :
    Except ExecError (List Vault) × OPState :=
  match execStep env ("list vaults") (some s) none st with
  | (Except.error e, st1) => (Except.error e, st1)
  | (Except.ok _, st1) => (env.vaultsResp, st1)

/-- Embedding of the getVault body (lines 156-171). -/
def getVaultFactory (env : Env) (s : Session) (id : String) (st : OPState) :
    Except ExecError VaultDetails × OPState :=
  match execStep env ("get vault " ++ id) (some s) none st with
  | (Except.error e, st1) => (Except.error e, st1)
  | (Except.ok _, st1) =>
    match env.vaultResp id with
    | Except.error e => (Except.error e, st1)
    | Except.ok raw =>
      match getAccountRun env s st1 with
      | (Except.error e, st2) => (Except.error e, st2)
      | (Except.ok account, st2) => (Except.ok (mkVaultDetails raw account), st2)

def getVaultRun (env : Env) (s : Session) (id : String) (st : OPState) :
    Except ExecError VaultDetails × OPState :=
  match alookup st.vaultCache (s, id) with
  | some r => (r, st)
  | none =>
    match getVaultFactory env s id st with
    | (r, st1) => (r, { st1 with vaultCache := ((s, id), r) :: st1.vaultCache })

/-! ## Normalization pipeline (lines 235-266) -/

/-- Embedding of the inner format function of trim (lines 236-251):
resolve the vault by id through the cached vault query, resolve the
template by a linear lookup in the cached template list, and assemble;
a missing template makes the subsequent member access throw (TypeError). -/
def formatRun (env : Env) (s : Session) (raw : RawItem) (st : OPState) :
    Except ExecError Item × OPState :=
  match getVaultRun env s raw.vaultUuid st with
  | (Except.error e, st1) => (Except.error e, st1)
  | (Except.ok vd, st1) =>
    match getTemplatesRun env s st1 with
    | (Except.error e, st2) => (Except.error e, st2)
    | (Except.ok ts, st2) =>
      match ts.find? (fun t => t.uuid == raw.templateUuid) with
      | none => (Except.error ExecError.typeError, st2)
      | some t => (Except.ok (assembleItem raw vd t), st2)

/-- Sequentialized embedding of the Promise.all over format on lines
253-262: the first rejection aborts. -/
def mapFormatRun (env : Env) (s : Session) (items : List RawItem) (st : OPState) :
    Except ExecError (List Item) × OPState :=
  match items with
  | [] => (Except.ok [], st)
  | raw :: rest =>
    match formatRun env s raw st with
    | (Except.error e, st1) => (Except.error e, st1)
    | (Except.ok it, st1) =>
      match mapFormatRun env s rest st1 with
      | (Except.error e, st2) => (Except.error e, st2)
      | (Except.ok l, st2) => (Except.ok (it :: l), st2)

/-- Embedding of the list branch of trim (lines 253-262): filter by the
record's embedded template reference against the supplied filter, then
map format. -/
def trimList (env : Env) (s : Session) (data : List RawItem)
    (tfilter : Option Template) (st : OPState) :
    Except ExecError (List Item) × OPState :=
  mapFormatRun env s
    (data.filter (fun item =>
      match tfilter with
      | some t => item.template.uuid == t.uuid
      | none => true)) st

/-! ## Item operations (lines 203-233) -/

/-- Embedding of the getItems body (lines 203-227): list the items with
the optional vault scope, then either trim directly when the query is
falsy, or run the fuzzy search with the merged fuse options first. -/
def getItemsFactory (env : Env) (fz : FuzzySearch) (s : Session) (opts : ItemsOptions)
    (st : OPState) : Except ExecError (List Item) × OPState :=
  match execStep env ("list items") (some s) opts.vault st with
  | (Except.error e, st1) => (Except.error e, st1)
  | (Except.ok _, st1) =>
    match env.itemsResp opts.vault with
    | Except.error e => (Except.error e, st1)
    | Except.ok items =>
      if queryFalsy opts.query then
        trimList env s items opts.template st1
      else
        trimList env s
          (fz (mergeFuse (opts.fuse.getD {})) items (opts.query.getD ""))
          opts.template st1

def getItemsRun (env : Env) (fz : FuzzySearch) (s : Session) (opts : ItemsOptions)
    (st : OPState) : Except ExecError (List Item) × OPState :=
  match alookup st.itemsCache (s, opts) with
  | some r => (r, st)
  | none =>
    match getItemsFactory env fz s opts st with
    | (r, st1) => (r, { st1 with itemsCache := ((s, opts), r) :: st1.itemsCache })

/-- Embedding of the getItem body (lines 229-233). -/
def getItemFactory (env : Env) (s : Session) (id : String) (st : OPState) :
    Except ExecError Item × OPState :=
  match execStep env ("get item " ++ id) (some s) none st with
  | (Except.error e, st1) => (Except.error e, st1)
  | (Except.ok _, st1) =>
    match env.itemResp id with
    | Except.error e => (Except.error e, st1)
    | Except.ok raw => formatRun env s raw st1

def getItemRun (env : Env) (s : Session) (id : String) (st : OPState) :
    Except ExecError Item × OPState :=
  match alookup st.itemCache (s, id) with
  | some r => (r, st)
  | none =>
    match getItemFactory env s id st with
    | (r, st1) => (r, { st1 with itemCache := ((s, id), r) :: st1.itemCache })

/-! ## Authentication (lines 27-40, 370-373) -/

/-- Embedding of the raw-output exec path used by signin: no session, no
vault, the captured standard output classified; a non-envelope result is
returned verbatim. -/
def execRaw (env : Env) (cmd : String) (st : OPState) :
    Except ExecError String × OPState :=
  match execStep env cmd none none st with
  | (Except.error e, st1) => (Except.error e, st1)
  | (Except.ok _, st1) => (classify env.signinResp, st1)

/-- Embedding of getSessionToken (lines 27-40): anything thrown on the
signin path is caught and becomes the resolved value of the promise, so
the caller receives either a Session or the caught error, never a
rejection. -/
def getSessionTokenRun (env : Env) (c : Credentials) (st : OPState) :
    (Session ⊕ ExecError) × OPState :=
  let cmd := "signin " ++ c.domain ++ " " ++ c.email ++ " " ++ c.secretKey
    ++ " " ++ c.masterPassword ++ " --output=raw"
  match execRaw env cmd st with
  | (Except.ok token, st1) =>
    (Sum.inl { token := token, expiresAt := env.now + 29 * 60000 }, st1)
  | (Except.error e, st1) => (Sum.inr e, st1)

/-! ## Pure denotations

Each operation's result value does not depend on the incoming state as
long as every cache entry agrees with the environment; the denotations
below give that state-independent value. -/

def accountDen (env : Env) (s : Session) : Except ExecError Account :=
  if isValidSession env.now s then
    env.accountResp.map formatAccount
  else
    Except.error (ExecError.sessionError ("Session invalid"))

def templatesDen (env : Env) (s : Session) : Except ExecError (List Template) :=
  if isValidSession env.now s then
    env.templatesResp
  else
    Except.error (ExecError.sessionError ("Session invalid"))

def vaultDen (env : Env) (s : Session) (u : String) : Except ExecError VaultDetails :=
  if isValidSession env.now s then
    match env.vaultResp u with
    | Except.error e => Except.error e
    | Except.ok raw =>
      match env.accountResp with
      | Except.error e => Except.error e
      | Except.ok ra => Except.ok (mkVaultDetails raw (formatAccount ra))
  else
    Except.error (ExecError.sessionError ("Session invalid"))

def formatDen (env : Env) (s : Session) (raw : RawItem) : Except ExecError Item :=
  match vaultDen env s raw.vaultUuid with
  | Except.error e => Except.error e
  | Except.ok vd =>
    match templatesDen env s with
    | Except.error e => Except.error e
    | Except.ok ts =>
      match ts.find? (fun t => t.uuid == raw.templateUuid) with
      | none => Except.error ExecError.typeError
      | some t => Except.ok (assembleItem raw vd t)

def mapFormatDen (env : Env) (s : Session) : List RawItem → Except ExecError (List Item)
  | [] => Except.ok []
  | raw :: rest =>
    match formatDen env s raw with
    | Except.error e => Except.error e
    | Except.ok it =>
      match mapFormatDen env s rest with
      | Except.error e => Except.error e
      | Except.ok l => Except.ok (it :: l)

def itemDen (env : Env) (s : Session) (id : String) : Except ExecError Item :=
  if isValidSession env.now s then
    match env.itemResp id with
    | Except.error e => Except.error e
    | Except.ok raw => formatDen env s raw
  else
    Except.error (ExecError.sessionError ("Session invalid"))

def itemsDen (env : Env) (fz : FuzzySearch) (s : Session) (opts : ItemsOptions) :
    Except ExecError (List Item) :=
  if isValidSession env.now s then
    match env.itemsResp opts.vault with
    | Except.error e => Except.error e
    | Except.ok items =>
      let chosen :=
        if queryFalsy opts.query then items
        else fz (mergeFuse (opts.fuse.getD {})) items (opts.query.getD "")
      mapFormatDen env s (chosen.filter (fun item =>
        match opts.template with
        | some t => item.template.uuid == t.uuid
        | none => true))
  else
    Except.error (ExecError.sessionError ("Session invalid"))

/-- Cache coherence: every cached settled outcome agrees with the
denotation the environment assigns to its key.  The empty caches satisfy
this vacuously.  The fuzzy-search-dependent items cache is parameterized
by the search function in use. -/
structure CacheOK (env : Env) (fz : FuzzySearch) (st : OPState) : Prop where
  account : ∀ s r, alookup st.accountCache s = some r → r = accountDen env s
  templates : ∀ s r, alookup st.templatesCache s = some r → r = templatesDen env s
  vault : ∀ s u r, alookup st.vaultCache (s, u) = some r → r = vaultDen env s u
  items : ∀ s opts r, alookup st.itemsCache (s, opts) = some r → r = itemsDen env fz s opts
  item : ∀ s u r, alookup st.itemCache (s, u) = some r → r = itemDen env s u

def exceptOk? : Except ε α → Option α
  | Except.ok a => some a
  | Except.error _ => none

/-- Resolution invariant for a produced item against the raw record it
came from: the vault field is the resolved VaultDetails of the record's
vault id as the vault-details query yields it, and the template field is
the template found in the resolved template list under the record's
template id. -/
def itemResolvedAt (env : Env) (s : Session) (raw : RawItem) (it : Item) : Prop :=
  vaultDen env s raw.vaultUuid = Except.ok it.vault ∧
  (exceptOk? (templatesDen env s)).bind
    (fun ts => ts.find? (fun tp => tp.uuid == raw.templateUuid)) = some it.template ∧
  it.uuid = raw.uuid ∧ it.title = raw.overview.title

def itemResolved (env : Env) (s : Session) (it : Item) : Prop :=
  ∃ raw : RawItem, itemResolvedAt env s raw it

/-! ## Promise-level single-flight cache

Modelled from the spec: the memoizee dependency that wraps getVault is not
part of this repository's source; per sections 4.5 and 5 of the
specification it stores, per argument key, the promise created by the
first call, so a second caller arriving before resolution attaches to the
same pending promise and no second subprocess is spawned.  Promises are
identified by numeric ids; spawns counts factory starts (subprocess
invocations). -/
structure PromiseCache (κ : Type) where
  entries : List (κ × Nat)
  nextId : Nat
  spawns : Nat

/-- Modelled from the spec: one call against the promise cache; a hit
returns the stored (possibly still pending) promise, a miss allocates a
fresh promise, records it synchronously, and starts the factory, counting
one subprocess spawn. -/
def promiseCall [DecidableEq κ] (k : κ) (c : PromiseCache κ) : Nat × PromiseCache κ :=
  match alookup c.entries k with
  | some pid => (pid, c)
  | none =>
    (c.nextId,
      { entries := (k, c.nextId) :: c.entries, nextId := c.nextId + 1
        spawns := c.spawns + 1 })

/-! ## Concrete test fixtures -/

def s0 : Session := { token := "tok", expiresAt := 1 }

def sExpired : Session := { token := "tok", expiresAt := 0 }

def tmplLogin : Template := { uuid := "001", name := "Login" }

def rawAccount1 : RawAccount :=
  { uuid := "A", name := "acct", baseAvatarURL := "https://b/", avatar := "av.png"
    createdAt := 0 }

def rawVault1 : RawVault := { uuid := "V", name := "vault", desc := "d", avatar := "" }

def rawItem1 : RawItem :=
  { uuid := "I", vaultUuid := "V", templateUuid := "001", template := tmplLogin
    overview := { title := "T", ainfo := "user@x", url := "u" }, details := none }

def env0 : Env :=
  { now := 0
    signinResp := "[bin-error] a---b (ERROR) boom"
    accountResp := Except.ok rawAccount1
    usersResp := Except.ok []
    userResp := fun _ => Except.error ExecError.typeError
    templatesResp := Except.ok [tmplLogin]
    vaultsResp := Except.ok [{ uuid := "V", name := "vault" }]
    vaultResp := fun _ => Except.ok rawVault1
    itemsResp := fun _ => Except.ok [rawItem1]
    itemResp := fun _ => Except.ok rawItem1 }

def vd1 : VaultDetails :=
  { uuid := "V", name := "vault", description := "d"
    avatarUrl := "https://a.1password.com/app/images/avatar-vault-default.png" }

def item1 : Item :=
  { uuid := "I", vault := vd1, template := tmplLogin, title := "T"
    username := some ("user@x"), password := none }

def fzId : FuzzySearch := fun _ items _ => items

def fzDrop : FuzzySearch := fun _ _ _ => []

def vault1 : Vault := { uuid := "V", name := "vault" }

def creds0 : Credentials :=
  { domain := "d", email := "e", secretKey := "k", masterPassword := "m" }

def emptyPC : PromiseCache (Session × String) :=
  { entries := [], nextId := 0, spawns := 0 }

/-- Flags the builder appends for an optional vault scope, for stating the
builder contract. -/
def vaultFlagList : Option Vault → List String
  | some v => ["--vault=" ++ v.name]
  | none => []

def fName : RawField :=
  { name := "Password", designation := "x", type := "P", value := "npw" }

def fDesig : RawField :=
  { name := "other", designation := "PASSWORD", type := "P", value := "dpw" }

def itemBoth : RawItem :=
  { rawItem1 with details := some { fields := some [fDesig, fName] } }

/-! ## Theorems -/

/-- C7: isValidSession holds exactly when the check instant is strictly
before the session's expiration instant; at the exact expiration instant
the session is already invalid. -/
theorem isValidSession_iff_strictly_before (s : Session) :
    (∀ now : Int, isValidSession now s = true ↔ now < s.expiresAt) ∧
    isValidSession s.expiresAt s = false := by
  constructor
  · intro now
    simp [isValidSession]
  · simp [isValidSession]

/-- Witness for C7: one instant strictly before the expiration is valid,
the expiration instant itself is not. -/
theorem isValidSession_iff_strictly_before_check :
    isValidSession 0 s0 = true ∧ isValidSession 1 s0 = false :=
  ⟨((isValidSession_iff_strictly_before s0).1 0).mpr (by decide),
   (isValidSession_iff_strictly_before s0).2⟩

/-- C1 (code bug): at the raw output from the claim the classifier does
extract the trimmed message Item 123 not found, but, because the disjunct
on line 334 is the truthiness of a nonempty string literal, it classifies
the envelope as a SessionError instead of the QueryError carrying that
message which the specification requires. -/
theorem classify_item_not_found_misclassified :
    extractErrorMessage ("[bin-error] x---y (ERROR)  Item 123 not found  ")
      = some ("Item 123 not found") ∧
    classify ("[bin-error] x---y (ERROR)  Item 123 not found  ")
      = Except.error (ExecError.sessionError ("Session invalid")) := by
  constructor
  · decide
  · decide

/-- C6: the command builder raises a SessionError and leaves the state,
invocation log included, untouched when a supplied session fails the gate;
with a valid supplied session it appends the session flag and then the
vault flag exactly when a scope is supplied; with no session only the
vault flag is appended, and exactly one invocation is logged. -/
theorem execStep_session_gate_and_flags (env : Env) (cmd : String)
    (sess : Option Session) (vault : Option Vault) (st : OPState) :
    (∀ s, sess = some s → isValidSession env.now s = false →
      execStep env cmd sess vault st
        = (Except.error (ExecError.sessionError ("Session invalid")), st)) ∧
    (∀ s, sess = some s → isValidSession env.now s = true →
      execStep env cmd sess vault st
        = (Except.ok (jsSplit (" ") cmd ++ ["--session=" ++ s.token] ++ vaultFlagList vault),
           { st with log := st.log
              ++ [jsSplit (" ") cmd ++ ["--session=" ++ s.token] ++ vaultFlagList vault] })) ∧
    (sess = none →
      execStep env cmd sess vault st
        = (Except.ok (jsSplit (" ") cmd ++ vaultFlagList vault),
           { st with log := st.log ++ [jsSplit (" ") cmd ++ vaultFlagList vault] })) := by
  refine ⟨?_, ?_, ?_⟩
  · intro s hs hv
    subst hs
    simp [execStep, buildArgs, hv]
  · intro s hs hv
    subst hs
    cases vault with
    | none => simp [execStep, buildArgs, hv, appendVault, vaultFlagList]
    | some v => simp [execStep, buildArgs, hv, appendVault, vaultFlagList]
  · intro hs
    subst hs
    cases vault with
    | none => simp [execStep, buildArgs, appendVault, vaultFlagList]
    | some v => simp [execStep, buildArgs, appendVault, vaultFlagList]

/-- Witness for C6: an expired session is rejected without logging a
spawn; a valid session and a vault scope get both flags appended; the
sessionless path appends nothing but still spawns once. -/
theorem execStep_session_gate_and_flags_check :
    execStep env0 ("get account") (some sExpired) none initState
      = (Except.error (ExecError.sessionError ("Session invalid")), initState) ∧
    execStep env0 ("list items") (some s0) (some vault1) initState
      = (Except.ok (jsSplit (" ") ("list items") ++ ["--session=" ++ s0.token]
            ++ vaultFlagList (some vault1)),
         { initState with log := initState.log ++ [jsSplit (" ") ("list items")
            ++ ["--session=" ++ s0.token] ++ vaultFlagList (some vault1)] }) ∧
    execStep env0 ("signin") none none initState
      = (Except.ok (jsSplit (" ") ("signin") ++ vaultFlagList none),
         { initState with log := initState.log ++ [jsSplit (" ") ("signin")
            ++ vaultFlagList none] }) :=
  ⟨(execStep_session_gate_and_flags env0 ("get account") (some sExpired) none initState).1
      sExpired rfl (by decide),
   (execStep_session_gate_and_flags env0 ("list items") (some s0) (some vault1) initState).2.1
      s0 rfl (by decide),
   (execStep_session_gate_and_flags env0 ("signin") none none initState).2.2 rfl⟩

/-- C9: getSessionToken never rejects: when the signin output classifies
as an error the caught error object itself becomes the resolved value, and
a raw success payload becomes the token of a fresh Session. -/
theorem getSessionToken_catches (env : Env) (c : Credentials) (st : OPState) :
    (∀ e, classify env.signinResp = Except.error e →
      (getSessionTokenRun env c st).1 = Sum.inr e) ∧
    (∀ tok, classify env.signinResp = Except.ok tok →
      (getSessionTokenRun env c st).1
        = Sum.inl { token := tok, expiresAt := env.now + 29 * 60000 }) := by
  constructor
  · intro e he
    simp [getSessionTokenRun, execRaw, execStep, buildArgs, appendVault, he]
  · intro tok htok
    simp [getSessionTokenRun, execRaw, execStep, buildArgs, appendVault, htok]

/-- Witness for C9: with the error-envelope signin output of env0 the
resolved value is the caught SessionError. -/
theorem getSessionToken_catches_check :
    (getSessionTokenRun env0 creds0 initState).1
      = Sum.inr (ExecError.sessionError ("Session invalid")) :=
  (getSessionToken_catches env0 creds0 initState).1 _ (by decide)

/-- C5: trim over a list with a template filter keeps exactly the records
whose embedded template id equals the filter's id, then formats the
survivors: it coincides with the filterless trim of the pre-filtered
list, and the filterless trim formats every record. -/
theorem trimList_template_filter (env : Env) (s : Session) (data : List RawItem)
    (t : Template) (st : OPState) :
    trimList env s data (some t) st
      = trimList env s (data.filter (fun item => item.template.uuid == t.uuid)) none st ∧
    trimList env s data none st = mapFormatRun env s data st := by
  constructor
  · simp [trimList]
  · simp [trimList]

/-- C10: a falsy (absent or empty-string) query makes getItems skip the
fuzzy filter stage entirely: the factory result is independent of the
fuzzy search function and coincides with the absent-query run over the
same listing. -/
theorem getItems_falsy_query_skips_fuzzy (env : Env) (fz fz' : FuzzySearch)
    (s : Session) (opts : ItemsOptions) (st : OPState)
    (h : queryFalsy opts.query = true) :
    getItemsFactory env fz s opts st
      = getItemsFactory env fz' s { opts with query := none } st := by
  obtain ⟨v, t, q, f⟩ := opts
  have hq : q = none ∨ q = some ("") := by
    cases q with
    | none => exact Or.inl rfl
    | some qs =>
      refine Or.inr ?_
      have : qs = "" := by simpa [queryFalsy] using h
      rw [this]
  simp only [getItemsFactory]
  cases execStep env ("list items") (some s) v st with
  | mk r st1 =>
    cases r with
    | error e => rfl
    | ok args =>
      cases env.itemsResp v with
      | error e => rfl
      | ok items =>
        rcases hq with hq | hq <;> subst hq <;> simp [queryFalsy]

/-- Witness for C10: with an empty-string query the factory result equals
the query-free factory result, for two different fuzzy search functions. -/
theorem getItems_falsy_query_skips_fuzzy_check :
    getItemsFactory env0 fzDrop s0 { query := some ("") } initState
      = getItemsFactory env0 fzId s0 { query := none } initState :=
  getItems_falsy_query_skips_fuzzy env0 fzDrop fzId s0 { query := some ("") } initState
    (by decide)

/-- C8: two calls against the single-flight promise cache with the same
key, the second issued before any resolution, share one promise: exactly
one subprocess spawn is counted and both callers read the same resolved
VaultDetails. -/
theorem getVault_single_flight (c : PromiseCache (Session × String))
    (k : Session × String) (resolve : Nat → VaultDetails)
    (h : alookup c.entries k = none) :
    (promiseCall k ((promiseCall k c).2)).1 = (promiseCall k c).1 ∧
    ((promiseCall k ((promiseCall k c).2)).2).spawns = c.spawns + 1 ∧
    resolve ((promiseCall k ((promiseCall k c).2)).1)
      = resolve ((promiseCall k c).1) := by
  simp [promiseCall, h, alookup]

/-- Witness for C8: a fresh cache and the key of getVault of vault v1. -/
theorem getVault_single_flight_check :
    (promiseCall (s0, ("v1")) ((promiseCall (s0, ("v1")) emptyPC).2)).1
      = (promiseCall (s0, ("v1")) emptyPC).1 ∧
    ((promiseCall (s0, ("v1")) ((promiseCall (s0, ("v1")) emptyPC).2)).2).spawns
      = emptyPC.spawns + 1 ∧
    (fun _ => vd1) ((promiseCall (s0, ("v1")) ((promiseCall (s0, ("v1")) emptyPC).2)).1)
      = (fun _ => vd1) ((promiseCall (s0, ("v1")) emptyPC).1) :=
  getVault_single_flight emptyPC (s0, ("v1")) (fun _ => vd1) rfl

/-- C2 (amended): for each memoized operation - getAccount, getUsers,
getUser, getTemplates, getVault, getItems, getItem, every listed operation
except the unmemoized getVaults - a second call with the identical key
returns the settled result of the first call and leaves the state,
invocation log included, untouched. -/
theorem memoized_second_call_cached (env : Env) (fz : FuzzySearch) (s : Session)
    (id : String) (opts : ItemsOptions) (st : OPState) :
    getAccountRun env s ((getAccountRun env s st).2) = getAccountRun env s st ∧
    getUsersRun env s ((getUsersRun env s st).2) = getUsersRun env s st ∧
    getUserRun env s id ((getUserRun env s id st).2) = getUserRun env s id st ∧
    getTemplatesRun env s ((getTemplatesRun env s st).2) = getTemplatesRun env s st ∧
    getVaultRun env s id ((getVaultRun env s id st).2) = getVaultRun env s id st ∧
    getItemsRun env fz s opts ((getItemsRun env fz s opts st).2)
      = getItemsRun env fz s opts st ∧
    getItemRun env s id ((getItemRun env s id st).2) = getItemRun env s id st := by
  refine ⟨?_, ?_, ?_, ?_, ?_, ?_, ?_⟩
  · unfold getAccountRun
    cases hl : alookup st.accountCache s with
    | some r => simp [hl]
    | none =>
      rcases hf : getAccountFactory env s st with ⟨r, st1⟩
      simp [hl, hf, alookup]
  · unfold getUsersRun
    cases hl : alookup st.usersCache s with
    | some r => simp [hl]
    | none =>
      rcases hf : getUsersFactory env s st with ⟨r, st1⟩
      simp [hl, hf, alookup]
  · unfold getUserRun
    cases hl : alookup st.userCache (s, id) with
    | some r => simp [hl]
    | none =>
      rcases hf : getUserFactory env s id st with ⟨r, st1⟩
      simp [hl, hf, alookup]
  · unfold getTemplatesRun
    cases hl : alookup st.templatesCache s with
    | some r => simp [hl]
    | none =>
      rcases hf : getTemplatesFactory env s st with ⟨r, st1⟩
      simp [hl, hf, alookup]
  · unfold getVaultRun
    cases hl : alookup st.vaultCache (s, id) with
    | some r => simp [hl]
    | none =>
      rcases hf : getVaultFactory env s id st with ⟨r, st1⟩
      simp [hl, hf, alookup]
  · unfold getItemsRun
    cases hl : alookup st.itemsCache (s, opts) with
    | some r => simp [hl]
    | none =>
      rcases hf : getItemsFactory env fz s opts st with ⟨r, st1⟩
      simp [hl, hf, alookup]
  · unfold getItemRun
    cases hl : alookup st.itemCache (s, id) with
    | some r => simp [hl]
    | none =>
      rcases hf : getItemFactory env s id st with ⟨r, st1⟩
      simp [hl, hf, alookup]

/-! ### Cache-coherence lemmas feeding the normalization invariant -/

theorem alookup_cons_elim [DecidableEq κ] {l : List (κ × α)} {k k' : κ} {v r : α}
    (h : alookup ((k, v) :: l) k' = some r) :
    (k' = k ∧ r = v) ∨ alookup l k' = some r := by
  by_cases hk : k' = k
  · left
    refine ⟨hk, ?_⟩
    simp [alookup, hk] at h
    exact h.symm
  · right
    simpa [alookup, hk] using h

theorem cacheOK_of_log (env : Env) (fz : FuzzySearch) (st : OPState)
    (l : List (List String)) (h : CacheOK env fz st) :
    CacheOK env fz { st with log := l } :=
  ⟨h.account, h.templates, h.vault, h.items, h.item⟩

theorem cacheOK_insert_account (env : Env) (fz : FuzzySearch) (st : OPState)
    (s : Session) (r : Except ExecError Account) (h : CacheOK env fz st)
    (hr : r = accountDen env s) :
    CacheOK env fz { st with accountCache := (s, r) :: st.accountCache } := by
  refine ⟨?_, h.templates, h.vault, h.items, h.item⟩
  intro s1 r1 hl
  rcases alookup_cons_elim hl with ⟨hk, hv⟩ | hrest
  · subst hk
    rw [hv, hr]
  · exact h.account s1 r1 hrest

theorem cacheOK_insert_templates (env : Env) (fz : FuzzySearch) (st : OPState)
    (s : Session) (r : Except ExecError (List Template)) (h : CacheOK env fz st)
    (hr : r = templatesDen env s) :
    CacheOK env fz { st with templatesCache := (s, r) :: st.templatesCache } := by
  refine ⟨h.account, ?_, h.vault, h.items, h.item⟩
  intro s1 r1 hl
  rcases alookup_cons_elim hl with ⟨hk, hv⟩ | hrest
  · subst hk
    rw [hv, hr]
  · exact h.templates s1 r1 hrest

theorem cacheOK_insert_vault (env : Env) (fz : FuzzySearch) (st : OPState)
    (s : Session) (u : String) (r : Except ExecError VaultDetails)
    (h : CacheOK env fz st) (hr : r = vaultDen env s u) :
    CacheOK env fz { st with vaultCache := ((s, u), r) :: st.vaultCache } := by
  refine ⟨h.account, h.templates, ?_, h.items, h.item⟩
  intro s1 u1 r1 hl
  rcases alookup_cons_elim hl with ⟨hk, hv⟩ | hrest
  · injection hk with hs hu
    subst hs
    subst hu
    rw [hv, hr]
  · exact h.vault s1 u1 r1 hrest

theorem cacheOK_insert_items (env : Env) (fz : FuzzySearch) (st : OPState)
    (s : Session) (opts : ItemsOptions) (r : Except ExecError (List Item))
    (h : CacheOK env fz st) (hr : r = itemsDen env fz s opts) :
    CacheOK env fz { st with itemsCache := ((s, opts), r) :: st.itemsCache } := by
  refine ⟨h.account, h.templates, h.vault, ?_, h.item⟩
  intro s1 o1 r1 hl
  rcases alookup_cons_elim hl with ⟨hk, hv⟩ | hrest
  · injection hk with hs ho
    subst hs
    subst ho
    rw [hv, hr]
  · exact h.items s1 o1 r1 hrest

theorem cacheOK_insert_item (env : Env) (fz : FuzzySearch) (st : OPState)
    (s : Session) (u : String) (r : Except ExecError Item)
    (h : CacheOK env fz st) (hr : r = itemDen env s u) :
    CacheOK env fz { st with itemCache := ((s, u), r) :: st.itemCache } := by
  refine ⟨h.account, h.templates, h.vault, h.items, ?_⟩
  intro s1 u1 r1 hl
  rcases alookup_cons_elim hl with ⟨hk, hv⟩ | hrest
  · injection hk with hs hu
    subst hs
    subst hu
    rw [hv, hr]
  · exact h.item s1 u1 r1 hrest

theorem cacheOK_init (env : Env) (fz : FuzzySearch) : CacheOK env fz initState := by
  refine ⟨?_, ?_, ?_, ?_, ?_⟩
  · intro s r hl
    simp [initState, alookup] at hl
  · intro s r hl
    simp [initState, alookup] at hl
  · intro s u r hl
    simp [initState, alookup] at hl
  · intro s o r hl
    simp [initState, alookup] at hl
  · intro s u r hl
    simp [initState, alookup] at hl

/-! ### Subprocess-step lemmas -/

theorem execStep_invalid (env : Env) (cmd : String) (vault : Option Vault)
    (st : OPState) (s : Session) (hv : isValidSession env.now s = false) :
    execStep env cmd (some s) vault st
      = (Except.error (ExecError.sessionError ("Session invalid")), st) := by
  simp [execStep, buildArgs, hv]

theorem execStep_valid (env : Env) (cmd : String) (vault : Option Vault)
    (st : OPState) (s : Session) (hv : isValidSession env.now s = true) :
    execStep env cmd (some s) vault st
      = (Except.ok (appendVault (jsSplit (" ") cmd ++ ["--session=" ++ s.token]) vault),
         { st with log := st.log
            ++ [appendVault (jsSplit (" ") cmd ++ ["--session=" ++ s.token]) vault] }) := by
  simp [execStep, buildArgs, hv]

theorem cacheOK_execStep (env : Env) (fz : FuzzySearch) (cmd : String)
    (sess : Option Session) (vault : Option Vault) (st : OPState)
    (h : CacheOK env fz st) :
    CacheOK env fz (execStep env cmd sess vault st).2 := by
  unfold execStep
  cases buildArgs env.now cmd sess vault with
  | error e => exact h
  | ok args => exact cacheOK_of_log env fz st _ h

/-! ### Denotation lemmas: under cache coherence every operation returns
its denotation and preserves coherence -/

theorem pair_den {α β : Type} {p : α × β} {v : α} (h1 : p.1 = v) : p = (v, p.2) := by
  cases p
  cases h1
  rfl

theorem getAccountFactory_den (env : Env) (fz : FuzzySearch) (s : Session)
    (st : OPState) (h : CacheOK env fz st) :
    (getAccountFactory env s st).1 = accountDen env s
      ∧ CacheOK env fz (getAccountFactory env s st).2 := by
  unfold getAccountFactory
  cases hv : isValidSession env.now s with
  | false =>
    rw [execStep_invalid env _ none st s hv]
    exact ⟨by simp [accountDen, hv], h⟩
  | true =>
    rw [execStep_valid env _ none st s hv]
    cases ha : env.accountResp with
    | error e =>
      simp only [ha]
      exact ⟨by simp [accountDen, hv, ha, Except.map], cacheOK_of_log env fz st _ h⟩
    | ok raw =>
      simp only [ha]
      exact ⟨by simp [accountDen, hv, ha, Except.map], cacheOK_of_log env fz st _ h⟩

theorem getAccountRun_den (env : Env) (fz : FuzzySearch) (s : Session)
    (st : OPState) (h : CacheOK env fz st) :
    (getAccountRun env s st).1 = accountDen env s
      ∧ CacheOK env fz (getAccountRun env s st).2 := by
  unfold getAccountRun
  cases hl : alookup st.accountCache s with
  | some r =>
    simp only [hl]
    exact ⟨h.account s r hl, h⟩
  | none =>
    have hf := getAccountFactory_den env fz s st h
    rcases hp : getAccountFactory env s st with ⟨r, st1⟩
    rw [hp] at hf
    simp only [hl, hp]
    exact ⟨hf.1, cacheOK_insert_account env fz st1 s r hf.2 hf.1⟩

theorem getAccountRun_denP (env : Env) (fz : FuzzySearch) (s : Session)
    (st : OPState) (h : CacheOK env fz st) :
    ∃ st1, getAccountRun env s st = (accountDen env s, st1) ∧ CacheOK env fz st1 :=
  ⟨(getAccountRun env s st).2, pair_den (getAccountRun_den env fz s st h).1,
    (getAccountRun_den env fz s st h).2⟩

theorem getTemplatesFactory_den (env : Env) (fz : FuzzySearch) (s : Session)
    (st : OPState) (h : CacheOK env fz st) :
    (getTemplatesFactory env s st).1 = templatesDen env s
      ∧ CacheOK env fz (getTemplatesFactory env s st).2 := by
  unfold getTemplatesFactory
  cases hv : isValidSession env.now s with
  | false =>
    rw [execStep_invalid env _ none st s hv]
    exact ⟨by simp [templatesDen, hv], h⟩
  | true =>
    rw [execStep_valid env _ none st s hv]
    exact ⟨by simp [templatesDen, hv], cacheOK_of_log env fz st _ h⟩

theorem getTemplatesRun_den (env : Env) (fz : FuzzySearch) (s : Session)
    (st : OPState) (h : CacheOK env fz st) :
    (getTemplatesRun env s st).1 = templatesDen env s
      ∧ CacheOK env fz (getTemplatesRun env s st).2 := by
  unfold getTemplatesRun
  cases hl : alookup st.templatesCache s with
  | some r =>
    simp only [hl]
    exact ⟨h.templates s r hl, h⟩
  | none =>
    have hf := getTemplatesFactory_den env fz s st h
    rcases hp : getTemplatesFactory env s st with ⟨r, st1⟩
    rw [hp] at hf
    simp only [hl, hp]
    exact ⟨hf.1, cacheOK_insert_templates env fz st1 s r hf.2 hf.1⟩

theorem getTemplatesRun_denP (env : Env) (fz : FuzzySearch) (s : Session)
    (st : OPState) (h : CacheOK env fz st) :
    ∃ st1, getTemplatesRun env s st = (templatesDen env s, st1) ∧ CacheOK env fz st1 :=
  ⟨(getTemplatesRun env s st).2, pair_den (getTemplatesRun_den env fz s st h).1,
    (getTemplatesRun_den env fz s st h).2⟩

theorem getVaultFactory_den (env : Env) (fz : FuzzySearch) (s : Session)
    (u : String) (st : OPState) (h : CacheOK env fz st) :
    (getVaultFactory env s u st).1 = vaultDen env s u
      ∧ CacheOK env fz (getVaultFactory env s u st).2 := by
  unfold getVaultFactory
  cases hv : isValidSession env.now s with
  | false =>
    rw [execStep_invalid env _ none st s hv]
    exact ⟨by simp [vaultDen, hv], h⟩
  | true =>
    rw [execStep_valid env _ none st s hv]
    cases hr : env.vaultResp u with
    | error e =>
      simp only [hr]
      exact ⟨by simp [vaultDen, hv, hr], cacheOK_of_log env fz st _ h⟩
    | ok raw =>
      simp only [hr]
      obtain ⟨st2, hap, hco⟩ := getAccountRun_denP env fz s
        { st with log := st.log ++ [appendVault (jsSplit (" ") ("get vault " ++ u)
            ++ ["--session=" ++ s.token]) none] }
        (cacheOK_of_log env fz st _ h)
      rw [hap]
      cases ha : env.accountResp with
      | error e =>
        have hae : accountDen env s = Except.error e := by
          simp [accountDen, hv, ha, Except.map]
        rw [hae]
        exact ⟨by simp [vaultDen, hv, hr, ha], hco⟩
      | ok ra =>
        have hae : accountDen env s = Except.ok (formatAccount ra) := by
          simp [accountDen, hv, ha, Except.map]
        rw [hae]
        exact ⟨by simp [vaultDen, hv, hr, ha], hco⟩

theorem getVaultRun_den (env : Env) (fz : FuzzySearch) (s : Session)
    (u : String) (st : OPState) (h : CacheOK env fz st) :
    (getVaultRun env s u st).1 = vaultDen env s u
      ∧ CacheOK env fz (getVaultRun env s u st).2 := by
  unfold getVaultRun
  cases hl : alookup st.vaultCache (s, u) with
  | some r =>
    simp only [hl]
    exact ⟨h.vault s u r hl, h⟩
  | none =>
    have hf := getVaultFactory_den env fz s u st h
    rcases hp : getVaultFactory env s u st with ⟨r, st1⟩
    rw [hp] at hf
    simp only [hl, hp]
    exact ⟨hf.1, cacheOK_insert_vault env fz st1 s u r hf.2 hf.1⟩

theorem getVaultRun_denP (env : Env) (fz : FuzzySearch) (s : Session)
    (u : String) (st : OPState) (h : CacheOK env fz st) :
    ∃ st1, getVaultRun env s u st = (vaultDen env s u, st1) ∧ CacheOK env fz st1 :=
  ⟨(getVaultRun env s u st).2, pair_den (getVaultRun_den env fz s u st h).1,
    (getVaultRun_den env fz s u st h).2⟩

theorem formatRun_den (env : Env) (fz : FuzzySearch) (s : Session)
    (raw : RawItem) (st : OPState) (h : CacheOK env fz st) :
    (formatRun env s raw st).1 = formatDen env s raw
      ∧ CacheOK env fz (formatRun env s raw st).2 := by
  unfold formatRun formatDen
  obtain ⟨st1, hv, h1⟩ := getVaultRun_denP env fz s raw.vaultUuid st h
  rw [hv]
  cases vaultDen env s raw.vaultUuid with
  | error e => exact ⟨rfl, h1⟩
  | ok vd =>
    simp only []
    obtain ⟨st2, ht, h2⟩ := getTemplatesRun_denP env fz s st1 h1
    rw [ht]
    cases templatesDen env s with
    | error e => exact ⟨rfl, h2⟩
    | ok ts =>
      simp only []
      cases ts.find? (fun t => t.uuid == raw.templateUuid) with
      | none => exact ⟨rfl, h2⟩
      | some t => exact ⟨rfl, h2⟩

theorem formatRun_denP (env : Env) (fz : FuzzySearch) (s : Session)
    (raw : RawItem) (st : OPState) (h : CacheOK env fz st) :
    ∃ st1, formatRun env s raw st = (formatDen env s raw, st1) ∧ CacheOK env fz st1 :=
  ⟨(formatRun env s raw st).2, pair_den (formatRun_den env fz s raw st h).1,
    (formatRun_den env fz s raw st h).2⟩

theorem mapFormatRun_den (env : Env) (fz : FuzzySearch) (s : Session) :
    ∀ (items : List RawItem) (st : OPState), CacheOK env fz st →
      (mapFormatRun env s items st).1 = mapFormatDen env s items
        ∧ CacheOK env fz (mapFormatRun env s items st).2
  | [], st, h => ⟨rfl, h⟩
  | raw :: rest, st, h => by
    unfold mapFormatRun mapFormatDen
    obtain ⟨st1, hf, h1⟩ := formatRun_denP env fz s raw st h
    rw [hf]
    cases formatDen env s raw with
    | error e => exact ⟨rfl, h1⟩
    | ok it =>
      simp only []
      have h2 := mapFormatRun_den env fz s rest st1 h1
      rw [pair_den h2.1]
      cases mapFormatDen env s rest with
      | error e => exact ⟨rfl, h2.2⟩
      | ok l => exact ⟨rfl, h2.2⟩

theorem trimList_den (env : Env) (fz : FuzzySearch) (s : Session)
    (data : List RawItem) (tfilter : Option Template) (st : OPState)
    (h : CacheOK env fz st) :
    (trimList env s data tfilter st).1
      = mapFormatDen env s (data.filter (fun item =>
          match tfilter with
          | some t => item.template.uuid == t.uuid
          | none => true))
      ∧ CacheOK env fz (trimList env s data tfilter st).2 := by
  unfold trimList
  exact mapFormatRun_den env fz s _ st h

theorem getItemsFactory_den (env : Env) (fz : FuzzySearch) (s : Session)
    (opts : ItemsOptions) (st : OPState) (h : CacheOK env fz st) :
    (getItemsFactory env fz s opts st).1 = itemsDen env fz s opts
      ∧ CacheOK env fz (getItemsFactory env fz s opts st).2 := by
  unfold getItemsFactory
  cases hv : isValidSession env.now s with
  | false =>
    rw [execStep_invalid env _ opts.vault st s hv]
    exact ⟨by simp [itemsDen, hv], h⟩
  | true =>
    rw [execStep_valid env _ opts.vault st s hv]
    cases hi : env.itemsResp opts.vault with
    | error e =>
      simp only [hi]
      exact ⟨by simp [itemsDen, hv, hi], cacheOK_of_log env fz st _ h⟩
    | ok items =>
      simp only [hi]
      have hco1 : CacheOK env fz { st with log := st.log
          ++ [appendVault (jsSplit (" ") ("list items")
            ++ ["--session=" ++ s.token]) opts.vault] } :=
        cacheOK_of_log env fz st _ h
      split
      next hq =>
        obtain ⟨hd, hc⟩ := trimList_den env fz s items opts.template _ hco1
        refine ⟨?_, hc⟩
        rw [hd]
        simp [itemsDen, hv, hi, hq]
      next hq =>
        obtain ⟨hd, hc⟩ := trimList_den env fz s
          (fz (mergeFuse (opts.fuse.getD {})) items (opts.query.getD ""))
          opts.template _ hco1
        refine ⟨?_, hc⟩
        rw [hd]
        simp [itemsDen, hv, hi, hq]

theorem getItemsRun_den (env : Env) (fz : FuzzySearch) (s : Session)
    (opts : ItemsOptions) (st : OPState) (h : CacheOK env fz st) :
    (getItemsRun env fz s opts st).1 = itemsDen env fz s opts
      ∧ CacheOK env fz (getItemsRun env fz s opts st).2 := by
  unfold getItemsRun
  cases hl : alookup st.itemsCache (s, opts) with
  | some r =>
    simp only [hl]
    exact ⟨h.items s opts r hl, h⟩
  | none =>
    have hf := getItemsFactory_den env fz s opts st h
    rcases hp : getItemsFactory env fz s opts st with ⟨r, st1⟩
    rw [hp] at hf
    simp only [hl, hp]
    exact ⟨hf.1, cacheOK_insert_items env fz st1 s opts r hf.2 hf.1⟩

theorem getItemFactory_den (env : Env) (fz : FuzzySearch) (s : Session)
    (id : String) (st : OPState) (h : CacheOK env fz st) :
    (getItemFactory env s id st).1 = itemDen env s id
      ∧ CacheOK env fz (getItemFactory env s id st).2 := by
  unfold getItemFactory
  cases hv : isValidSession env.now s with
  | false =>
    rw [execStep_invalid env _ none st s hv]
    exact ⟨by simp [itemDen, hv], h⟩
  | true =>
    rw [execStep_valid env _ none st s hv]
    cases hi : env.itemResp id with
    | error e =>
      simp only [hi]
      exact ⟨by simp [itemDen, hv, hi], cacheOK_of_log env fz st _ h⟩
    | ok raw =>
      simp only [hi]
      obtain ⟨hd, hc⟩ := formatRun_den env fz s raw
        { st with log := st.log ++ [appendVault (jsSplit (" ") ("get item " ++ id)
            ++ ["--session=" ++ s.token]) none] }
        (cacheOK_of_log env fz st _ h)
      refine ⟨?_, hc⟩
      rw [hd]
      simp [itemDen, hv, hi]

theorem getItemRun_den (env : Env) (fz : FuzzySearch) (s : Session)
    (id : String) (st : OPState) (h : CacheOK env fz st) :
    (getItemRun env s id st).1 = itemDen env s id
      ∧ CacheOK env fz (getItemRun env s id st).2 := by
  unfold getItemRun
  cases hl : alookup st.itemCache (s, id) with
  | some r =>
    simp only [hl]
    exact ⟨h.item s id r hl, h⟩
  | none =>
    have hf := getItemFactory_den env fz s id st h
    rcases hp : getItemFactory env s id st with ⟨r, st1⟩
    rw [hp] at hf
    simp only [hl, hp]
    exact ⟨hf.1, cacheOK_insert_item env fz st1 s id r hf.2 hf.1⟩

/-! ### From denotations to the resolution invariant -/

theorem formatDen_ok_resolved (env : Env) (s : Session) (raw : RawItem) (it : Item)
    (h : formatDen env s raw = Except.ok it) : itemResolvedAt env s raw it := by
  unfold formatDen at h
  cases hv : vaultDen env s raw.vaultUuid with
  | error e =>
    rw [hv] at h
    simp at h
  | ok vd =>
    rw [hv] at h
    simp only [] at h
    cases ht : templatesDen env s with
    | error e =>
      rw [ht] at h
      simp at h
    | ok ts =>
      rw [ht] at h
      simp only [] at h
      cases hf : ts.find? (fun t => t.uuid == raw.templateUuid) with
      | none =>
        rw [hf] at h
        simp at h
      | some t =>
        rw [hf] at h
        simp only [] at h
        have hit : it = assembleItem raw vd t := by
          injection h with h1
          exact h1.symm
        subst hit
        refine ⟨?_, ?_, rfl, rfl⟩
        · rw [hv]
          rfl
        · rw [ht]
          simp only [exceptOk?, Option.some_bind]
          rw [hf]
          rfl

theorem mapFormatDen_ok_mem (env : Env) (s : Session) :
    ∀ (items : List RawItem) (l : List Item), mapFormatDen env s items = Except.ok l →
      ∀ it ∈ l, ∃ raw, raw ∈ items ∧ formatDen env s raw = Except.ok it
  | [], l, h => by
    unfold mapFormatDen at h
    have hl : l = [] := by
      injection h with h1
      exact h1.symm
    subst hl
    intro it hmem
    simp at hmem
  | raw :: rest, l, h => by
    unfold mapFormatDen at h
    cases hf : formatDen env s raw with
    | error e =>
      rw [hf] at h
      simp at h
    | ok it0 =>
      rw [hf] at h
      cases hm : mapFormatDen env s rest with
      | error e =>
        rw [hm] at h
        simp at h
      | ok l0 =>
        rw [hm] at h
        have hl : l = it0 :: l0 := by
          injection h with h1
          exact h1.symm
        subst hl
        intro it hmem
        rcases List.mem_cons.mp hmem with hit | hit
        · subst hit
          exact ⟨raw, List.mem_cons_self raw rest, hf⟩
        · obtain ⟨raw2, hraw2, hfd⟩ := mapFormatDen_ok_mem env s rest l0 hm it hit
          exact ⟨raw2, List.mem_cons_of_mem raw hraw2, hfd⟩

/-- C3: from any coherent cache state (the fresh client state included)
every Item the core produces carries, on the single-item path and on the
list path alike, the resolved VaultDetails of its record's vault id as the
vault-details query yields it, and the resolved Template found in the
template list under the record's template id - never a bare id
reference. -/
theorem items_carry_resolved_vault_and_template (env : Env) (fz : FuzzySearch)
    (s : Session) (st : OPState) (h : CacheOK env fz st) :
    (∀ id raw it, env.itemResp id = Except.ok raw →
      (getItemRun env s id st).1 = Except.ok it → itemResolvedAt env s raw it) ∧
    (∀ opts l, (getItemsRun env fz s opts st).1 = Except.ok l →
      ∀ it ∈ l, itemResolved env s it) := by
  constructor
  · intro id raw it hresp hok
    rw [(getItemRun_den env fz s id st h).1] at hok
    unfold itemDen at hok
    cases hv : isValidSession env.now s with
    | false =>
      simp [hv] at hok
    | true =>
      simp only [hv, if_true] at hok
      rw [hresp] at hok
      simp only [] at hok
      exact formatDen_ok_resolved env s raw it hok
  · intro opts l hok it hmem
    rw [(getItemsRun_den env fz s opts st h).1] at hok
    unfold itemsDen at hok
    cases hv : isValidSession env.now s with
    | false =>
      simp [hv] at hok
    | true =>
      simp only [hv, if_true] at hok
      cases hi : env.itemsResp opts.vault with
      | error e =>
        rw [hi] at hok
        simp at hok
      | ok items =>
        rw [hi] at hok
        simp only [] at hok
        obtain ⟨raw, -, hfd⟩ := mapFormatDen_ok_mem env s _ l hok it hmem
        exact ⟨raw, formatDen_ok_resolved env s raw it hfd⟩

/-- Witness for C3: on the fresh client state the single item fetch and
the item listing of env0 both deliver item1, whose vault field is the
resolved vd1 and whose template field is the Login template. -/
theorem items_carry_resolved_vault_and_template_check :
    env0.itemResp ("i") = Except.ok rawItem1 ∧
    (getItemRun env0 s0 ("i") initState).1 = Except.ok item1 ∧
    itemResolvedAt env0 s0 rawItem1 item1 ∧
    (getItemsRun env0 fzId s0 { query := none } initState).1 = Except.ok [item1] ∧
    itemResolved env0 s0 item1 :=
  ⟨rfl, by decide,
   (items_carry_resolved_vault_and_template env0 fzId s0 initState
      (cacheOK_init env0 fzId)).1 ("i") rawItem1 item1 rfl (by decide),
   by decide,
   (items_carry_resolved_vault_and_template env0 fzId s0 initState
      (cacheOK_init env0 fzId)).2 { query := none } [item1] (by decide) item1
      (by simp)⟩

/-- C4: for a Login-template item (template id 001) with a details.fields
list, username is the overview account-info field; the password is the
first name-matched password field's value when one exists (that match
wins even when a designation match also exists), otherwise the first
designation-matched field's value, and it is absent when neither
exists. -/
theorem mapper_login_password_precedence (item : RawItem) (t : Template)
    (d : RawDetails) (fs : List RawField)
    (ht : t.uuid = "001") (hd : item.details = some d) (hf : d.fields = some fs) :
    (mapper item t).username = some item.overview.ainfo ∧
    (∀ f, fs.find? isNamePasswordField = some f →
      (mapper item t).password = some f.value) ∧
    (fs.find? isNamePasswordField = none →
      ∀ g, fs.find? isDesignationPasswordField = some g →
        (mapper item t).password = some g.value) ∧
    (fs.find? isNamePasswordField = none →
      fs.find? isDesignationPasswordField = none →
      (mapper item t).password = none) := by
  have hm : mapper item t =
      { username := some item.overview.ainfo
        password :=
          match fs.find? isNamePasswordField with
          | some f => some f.value
          | none =>
            match fs.find? isDesignationPasswordField with
            | some f => some f.value
            | none => none } := by
    obtain ⟨iu, ivu, itu, itpl, iov, idet⟩ := item
    obtain ⟨tu, tn⟩ := t
    obtain ⟨dfs⟩ := d
    have ht2 : tu = "001" := ht
    have hd2 : idet = some ⟨dfs⟩ := hd
    have hf2 : dfs = some fs := hf
    subst ht2
    subst hd2
    subst hf2
    rfl
  refine ⟨?_, ?_, ?_, ?_⟩
  · rw [hm]
  · intro f hfind
    rw [hm]
    simp only [hfind]
  · intro hnone g hfind
    rw [hm]
    simp only [hnone, hfind]
  · intro hnone hnone2
    rw [hm]
    simp only [hnone, hnone2]

/-- Witness for C4: itemBoth carries both a designation-matched field
(first in the list) and a name-matched one; the name match wins. -/
theorem mapper_login_password_precedence_check :
    (mapper itemBoth tmplLogin).username = some (("user@x" : String)) ∧
    (mapper itemBoth tmplLogin).password = some (("npw" : String)) :=
  ⟨(mapper_login_password_precedence itemBoth tmplLogin
      { fields := some [fDesig, fName] } [fDesig, fName] rfl rfl rfl).1,
   (mapper_login_password_precedence itemBoth tmplLogin
      { fields := some [fDesig, fName] } [fDesig, fName] rfl rfl rfl).2.1
      fName (by decide)⟩

/-- C2 counterexample: getVaults is not memoized - a second call with the
identical session performs a second subprocess invocation (the log grows
from one to two entries) even though the first call has already resolved
with the very same result. -/
theorem getVaults_not_memoized :
    ((getVaultsRun env0 s0 initState).2).log.length = 1 ∧
    ((getVaultsRun env0 s0 ((getVaultsRun env0 s0 initState).2)).2).log.length = 2 ∧
    (getVaultsRun env0 s0 ((getVaultsRun env0 s0 initState).2)).1
      = (getVaultsRun env0 s0 initState).1 := by
  refine ⟨?_, ?_, ?_⟩ <;> decide

end OnePassword
